import Mathlib

set_option maxRecDepth 8192

/-!
Shallow embedding of the conversation core of
`src/bot/core/messagehandler.py` (class `TelegramBot`): the `/setup`
wizard state machine (`setup`, `handle_answer`, `_create_summary`,
`cancel`) together with the fragments of Python semantics it relies on
(`str.strip`, `str.lower`, `int(...)`, `float(...)`, f-string rendering
of the stored values).  Per-user state is the `context.user_data` dict,
modelled by `UserData`; each handler maps a state and an inbound update
to a new state, the list of replies sent, and the value returned to the
conversation framework.
-/

namespace TPT

/-- The effective user attached to an inbound update (id and first name). -/
structure EffUser where
  id : Int
  first_name : String
deriving Repr, DecidableEq

/-- Python `str.strip()` with no argument: drop surrounding whitespace
(modelled for ASCII whitespace, which is all the call sites exercise). -/
def pyStrip (s : String) : String :=
  String.mk (((s.data.dropWhile Char.isWhitespace).reverse.dropWhile
    Char.isWhitespace).reverse)

/-- Python `str.lower()` (modelled for ASCII letters). -/
def pyLower (s : String) : String := String.mk (s.data.map Char.toLower)

/-- Numeric value of a decimal digit character. -/
def digitVal (c : Char) : Nat := c.toNat - 48

/-- A valid Python digit run: nonempty, decimal digits with optional
single underscores strictly between digits (PEP 515). -/
def validDigitRun (cs : List Char) : Bool :=
  match cs with
  | [] => false
  | c :: _ =>
    c.isDigit &&
    (match cs.getLast? with | some d => d.isDigit | none => false) &&
    cs.all (fun x => x.isDigit || x == '_') &&
    (cs.zip cs.tail).all (fun p => !(p.1 == '_' && p.2 == '_'))

/-- Value of a digit run (underscores ignored). -/
def digitsNat (cs : List Char) : Nat :=
  (cs.filter (fun c => c != '_')).foldl (fun n c => 10 * n + digitVal c) 0

/-- Strip one leading sign character; `true` means negative. -/
def stripSign (cs : List Char) : Bool × List Char :=
  match cs with
  | [] => (false, [])
  | c :: r =>
    if c == '+' then (false, r)
    else if c == '-' then (true, r)
    else (false, c :: r)

/-- Python `int(s)` for a string argument: an optional sign followed by a
digit run, else `ValueError` (`none`).  The builtin also strips
surrounding whitespace; the call sites here always pass input that was
already stripped, so that step is omitted. -/
def pyIntOfString (s : String) : Option Int :=
  let (neg, body) := stripSign s.data
  if validDigitRun body then
    some (if neg then -(digitsNat body : Int) else (digitsNat body : Int))
  else none

/-- A rational number in lowest terms (`num / den`, `den > 0` for every
value built here), used for the exact value of a finite float literal. -/
structure DRat where
  num : Int
  den : Nat
deriving Repr, DecidableEq

/-- The rational value of a `DRat`, for specification statements. -/
def DRat.toRat (q : DRat) : Rat := (q.num : Rat) / (q.den : Rat)

/-- CPython `float` values as produced by `float(s)`: finite values are
modelled as exact rationals (every decimal literal is exact at these
magnitudes), plus the infinities and nan. -/
inductive PyFloat where
  | finite (q : DRat)
  | inf
  | negInf
  | nan
deriving Repr, DecidableEq

/-- The Python comparison `v <= 0` on a float: `nan` compares false. -/
def PyFloat.le0 : PyFloat → Bool
  | .finite q => decide (q.num ≤ 0)
  | .inf => false
  | .negInf => true
  | .nan => false

/-- Split a character list at the first occurrence of `sep`. -/
def splitAtChar (sep : Char) : List Char → List Char × Option (List Char)
  | [] => ([], none)
  | c :: rest =>
    if c == sep then ([], some rest)
    else
      let (a, b) := splitAtChar sep rest
      (c :: a, b)

/-- A valid float mantissa: `digits`, `digits.`, `.digits` or
`digits.digits` (with PEP 515 underscores inside each run). -/
def validMantissa (cs : List Char) : Bool :=
  match splitAtChar '.' cs with
  | (ip, none) => validDigitRun ip
  | (ip, some fp) =>
    (ip.isEmpty || validDigitRun ip) &&
    (fp.isEmpty || validDigitRun fp) &&
    !(ip.isEmpty && fp.isEmpty)

/-- Value of a valid mantissa as a scaled integer: `(n, k)` stands for
`n / 10 ^ k`. -/
def mantissaNum (cs : List Char) : Nat × Nat :=
  match splitAtChar '.' cs with
  | (ip, none) => (digitsNat ip, 0)
  | (ip, some fp) =>
    let k := (fp.filter (fun c => c != '_')).length
    (digitsNat ip * 10 ^ k + digitsNat fp, k)

/-- The exact value `(if neg then -1 else 1) * n * 10 ^ (e - k)` in
lowest terms: the finite float value of a literal with mantissa
`n / 10 ^ k` and exponent `e`. -/
def decToDRat (neg : Bool) (n k : Nat) (e : Int) : DRat :=
  let t : Int := e - (k : Int)
  let nd : Nat × Nat :=
    if 0 ≤ t then (n * 10 ^ t.toNat, 1)
    else
      let d := 10 ^ (-t).toNat
      let g := Nat.gcd n d
      (n / g, d / g)
  ⟨if neg then -(nd.1 : Int) else (nd.1 : Int), nd.2⟩

/-- Body of `float(s)` after the optional sign: the special spellings
`inf`, `infinity`, `nan`, or a mantissa with an optional exponent. -/
def pyFloatBody (neg : Bool) (cs : List Char) : Option PyFloat :=
  if cs = "inf".data ∨ cs = "infinity".data then
    some (if neg then .negInf else .inf)
  else if cs = "nan".data then
    some .nan
  else
    match splitAtChar 'e' cs with
    | (m, none) =>
      if validMantissa m then
        some (.finite (decToDRat neg (mantissaNum m).1 (mantissaNum m).2 0))
      else none
    | (m, some ex) =>
      let (eneg, ed) := stripSign ex
      if validMantissa m && validDigitRun ed then
        let e : Int := if eneg then -(digitsNat ed : Int) else (digitsNat ed : Int)
        some (.finite (decToDRat neg (mantissaNum m).1 (mantissaNum m).2 e))
      else none

/-- Python `float(s)` for a string argument, `none` on `ValueError`.
Modelled for lowercase input (both call sites lower-case first), and
with the builtin's own whitespace strip omitted because the call sites
always pass input that was already stripped. -/
def pyFloatOfString (s : String) : Option PyFloat :=
  let (neg, body) := stripSign s.data
  pyFloatBody neg body

/-- Least `k ≤ 40` with `d ∣ 10 ^ k` (denominators produced by
`pyFloatOfString` always divide a power of ten). -/
def pow10Exp (d : Nat) : Nat :=
  ((List.range 41).find? (fun k => decide (d ∣ 10 ^ k))).getD 0

/-- Pad a digit string on the left with zeros to length `n`. -/
def natPadLeft (s : String) (n : Nat) : String :=
  String.mk (List.replicate (n - s.length) '0') ++ s

/-- Decimal rendering of a finite float value whose denominator divides
a power of ten: integral values print with a trailing `.0`, as Python's
`repr`, otherwise the shortest decimal expansion. -/
def decimalRepr (q : DRat) : String :=
  if q.den = 1 then toString q.num ++ ".0"
  else
    let k := pow10Exp q.den
    let n := q.num.natAbs * 10 ^ k / q.den
    let sign := if q.num < 0 then "-" else ""
    let padded := natPadLeft (toString n) (k + 1)
    let ipLen := padded.length - k
    sign ++ padded.take ipLen ++ "." ++ padded.drop ipLen

/-- Python `str`/f-string rendering of a float value. -/
def PyFloat.pyRepr : PyFloat → String
  | .finite q => decimalRepr q
  | .inf => "inf"
  | .negInf => "-inf"
  | .nan => "nan"

/-- The `answers` dict inside the setup data: keys `daily_puffs`,
`reduction_type`, `goal_value`; `none` models an absent key. -/
structure Answers where
  daily_puffs : Option Int
  reduction_type : Option String
  goal_value : Option PyFloat
deriving Repr, DecidableEq

/-- The dict stored under `context.user_data["setup_data"]`. -/
structure SetupData where
  user_id : Int
  user_name : String
  setup_id : String
  current_question : Nat
  answers : Answers
deriving Repr, DecidableEq

/-- The per-user `context.user_data` dict: the `setup_data` key (the
session) and the `questions` key; `none` models an absent key. -/
structure UserData where
  setup_data : Option SetupData
  questions : Option (List String)
deriving Repr, DecidableEq

/-- The first `questions` list assigned in `setup` (line 121, with
`have per day` in question 1); it is overwritten before use. -/
def questionsHave : List String :=
  ["📊 *Question 1:*\nHow many puffs do you typically have per day?\n\nPlease enter a number (example: 20)",
   "🎯 *Question 2:*\nHow would you like to reduce your puffs?\n\n*Type one of these options:*\n• `number` - Reduce by a specific number of puffs\n• `percent` - Reduce by a percentage",
   "💪 *Question 3:*\nWhat\x27s your weekly reduction goal?\n\n• If you chose \x27number\x27: Enter puffs to reduce (example: 5)\n• If you chose \x27percent\x27: Enter percentage (example: 10)"]

/-- The second `questions` list assigned in `setup` (line 154, with
`take per day` in question 1); this is the one the prompts are read from. -/
def questionsTake : List String :=
  ["📊 *Question 1:*\nHow many puffs do you typically take per day?\n\nPlease enter a number (example: 20)",
   "🎯 *Question 2:*\nHow would you like to reduce your puffs?\n\n*Type one of these options:*\n• `number` - Reduce by a specific number of puffs\n• `percent` - Reduce by a percentage",
   "💪 *Question 3:*\nWhat\x27s your weekly reduction goal?\n\n• If you chose \x27number\x27: Enter puffs to reduce (example: 5)\n• If you chose \x27percent\x27: Enter percentage (example: 10)"]

/-- Reply sent by `setup` when setup data from a previous run exists. -/
def alreadySetupMsg : String :=
  "You have already setup your account in the past.\nStarting setup process again from the beginning..."

/-- Reply sent by `setup` when any exception is raised inside it. -/
def setupFailedMsg : String := "⚠️ Setup failed\\. Please try again with /setup"

/-- Rejection reply for questions 1 and 3 (invalid or non-positive number). -/
def invalidNumberMsg : String := "❌ Please enter a valid positive number\\."

/-- Rejection reply for question 2 (answer not `number`/`percent`). -/
def invalidChoiceMsg : String := "❌ Please type either `number` or `percent`\\."

/-- Reply sent by `handle_answer` when a `KeyError` is caught. -/
def somethingWrongMsg : String := "⚠️ Something went wrong\\. Please restart with /setup"

/-- Reply sent by `cancel`. -/
def cancelMsg : String := "❌ Setup cancelled\\. Use /setup to start again\\."

/-- Value a handler hands back to the conversation framework. -/
inductive HandlerResult where
  | answering
  | ended
  | retNone
  | raised
deriving Repr, DecidableEq

/-- Result of running a handler: the updated `user_data`, the replies
sent (in order), and the value returned to the framework.  `raised`
marks an exception that propagates out of the handler uncaught. -/
structure StepOut where
  user_data : UserData
  replies : List String
  result : HandlerResult
deriving Repr, DecidableEq

/-- `TelegramBot.setup`.  `eu` is `update.effective_user` and `sid`
models the fresh `str(uuid4())`.  Any exception inside the body is
caught by its `except Exception` clause, which replies with
`setupFailedMsg` and returns `ConversationHandler.END`. -/
def setup (eu : Option EffUser) (sid : String) (ud : UserData) : StepOut :=
  match eu with
  | none => ⟨ud, [setupFailedMsg], .ended⟩
  | some u =>
    if u.id == 0 || u.first_name == "" then
      ⟨ud, [setupFailedMsg], .ended⟩
    else
      let cleared :=
        if ud.setup_data.isSome then
          ((⟨none, none⟩ : UserData), [alreadySetupMsg])
        else (ud, ([] : List String))
      let ud2 : UserData := { cleared.1 with questions := some questionsHave }
      let ud3 : UserData :=
        { ud2 with setup_data := some ⟨u.id, u.first_name, sid, 0, ⟨none, none, none⟩⟩ }
      let ud4 : UserData := { ud3 with questions := some questionsTake }
      match ud4.questions.bind (fun qs => qs.get? 0) with
      | some q => ⟨ud4, cleared.2 ++ [q], .answering⟩
      | none => ⟨ud4, cleared.2 ++ [setupFailedMsg], .ended⟩

/-- `TelegramBot._create_summary`; `none` models the `KeyError` raised
when one of the three keys is missing from the answers dict. -/
def createSummary (a : Answers) : Option String :=
  match a.daily_puffs, a.reduction_type, a.goal_value with
  | some d, some r, some g =>
    some ("✅ *Setup Complete\\!*\n\n" ++
      "Daily puffs: `" ++ toString d ++ "`\n" ++
      "Reduction type: `" ++ r ++ "`\n" ++
      "Weekly goal: `" ++ g.pyRepr ++ "`")
  | _, _, _ => none

/-- The tail `await update.message.reply_text(context.user_data
["questions"][i], ...)` of the accepting branches of `handle_answer`:
a missing `questions` key is a `KeyError` (caught by the outer handler,
which replies `somethingWrongMsg` and returns `END`); an out-of-range
index would raise an uncaught `IndexError` (`raised`). -/
def askQuestion (ud1 : UserData) (i : Nat) : StepOut :=
  match ud1.questions with
  | none => ⟨ud1, [somethingWrongMsg], .ended⟩
  | some qs =>
    match qs.get? i with
    | some q => ⟨ud1, [q], .answering⟩
    | none => ⟨ud1, [], .raised⟩

/-- The tail of the final accepting branch of `handle_answer`: build the
summary from the answers dict and reply with it, returning `END`; a
`KeyError` inside `_create_summary` is caught by the outer handler,
which replies `somethingWrongMsg` and also returns `END`. -/
def emitSummary (ud1 : UserData) (a : Answers) : StepOut :=
  match createSummary a with
  | some s => ⟨ud1, [s], .ended⟩
  | none => ⟨ud1, [somethingWrongMsg], .ended⟩

/-- `TelegramBot.handle_answer`.  `text` is `update.message.text`.  A
missing `setup_data` key is a `KeyError` caught by the outer handler
(reply `somethingWrongMsg`, return `END`).  When `current_question`
matches no branch the function returns `None` (`retNone`). -/
def handle_answer (ud : UserData) (text : String) : StepOut :=
  match ud.setup_data with
  | none => ⟨ud, [somethingWrongMsg], .ended⟩
  | some sd =>
    let answer := pyLower (pyStrip text)
    if sd.current_question == 0 then
      match pyIntOfString answer with
      | none => ⟨ud, [invalidNumberMsg], .answering⟩
      | some puffs =>
        if puffs ≤ 0 then ⟨ud, [invalidNumberMsg], .answering⟩
        else
          let sd1 := { sd with
            answers := { sd.answers with daily_puffs := some puffs },
            current_question := 1 }
          askQuestion { ud with setup_data := some sd1 } 1
    else if sd.current_question == 1 then
      if !(answer == "number" || answer == "percent") then
        ⟨ud, [invalidChoiceMsg], .answering⟩
      else
        let sd1 := { sd with
          answers := { sd.answers with reduction_type := some answer },
          current_question := 2 }
        askQuestion { ud with setup_data := some sd1 } 2
    else if sd.current_question == 2 then
      match pyFloatOfString answer with
      | none => ⟨ud, [invalidNumberMsg], .answering⟩
      | some goal =>
        if goal.le0 then ⟨ud, [invalidNumberMsg], .answering⟩
        else
          let sd1 := { sd with
            answers := { sd.answers with goal_value := some goal } }
          emitSummary { ud with setup_data := some sd1 } sd1.answers
    else ⟨ud, [], .retNone⟩

/-- `TelegramBot.cancel`: delete the setup data when present, always
acknowledge and return `END`. -/
def cancel (ud : UserData) : StepOut :=
  let ud1 := if ud.setup_data.isSome then { ud with setup_data := none } else ud
  ⟨ud1, [cancelMsg], .ended⟩

/-- An inbound event for one user, as the spec classifies them. -/
inductive Event where
  | start (eu : Option EffUser) (sid : String)
  | answer (text : String)
  | cancelEv
deriving Repr

/-- One step of the conversation engine: dispatch an event to the
handler that processes it. -/
def engineStep (e : Event) (ud : UserData) : StepOut :=
  match e with
  | .start eu sid => setup eu sid ud
  | .answer t => handle_answer ud t
  | .cancelEv => cancel ud

/-- The session invariant stated by the spec, instantiated to the fixed
three-step catalog: `answers` holds exactly the entries for steps
`0..current_question-1`, where step 0 stores `daily_puffs`, step 1
stores `reduction_type` and step 2 stores `goal_value`. -/
def sessionInv (sd : SetupData) : Prop :=
  (sd.answers.daily_puffs.isSome ↔ 1 ≤ sd.current_question) ∧
  (sd.answers.reduction_type.isSome ↔ 2 ≤ sd.current_question) ∧
  (sd.answers.goal_value.isSome ↔ 3 ≤ sd.current_question)

instance (sd : SetupData) : Decidable (sessionInv sd) := by
  unfold sessionInv; infer_instance

/-- Spec-side predicate: the string is a plain positive decimal literal,
in integer form (`digit+`) or fractional form (`digit+.digit+`), with a
nonzero value. -/
def isPosDecimalLit (s : String) : Bool :=
  match splitAtChar '.' s.data with
  | (ip, none) => (!ip.isEmpty) && ip.all Char.isDigit && (digitsNat ip != 0)
  | (ip, some fp) =>
    (!ip.isEmpty) && (!fp.isEmpty) && ip.all Char.isDigit && fp.all Char.isDigit &&
    (digitsNat ip != 0 || digitsNat fp != 0)

/-- Spec-side predicate: the string is a positive decimal literal in
fractional form (it contains a decimal point). -/
def isFractionalLit (s : String) : Bool :=
  isPosDecimalLit s && s.data.any (fun c => c == '.')

/-- Spec-side predicate: the string is a plain positive decimal literal
in integer form (`digit+` with a nonzero value). -/
def isPosIntLit (s : String) : Bool :=
  (!s.data.isEmpty) && s.data.all Char.isDigit && (digitsNat s.data != 0)

/-- The fixed, step-specific rejection message of each step: steps 0 and
2 reject with the invalid-number reply, step 1 with the invalid-choice
reply. -/
def rejectionMsg : Nat → String
  | 1 => invalidChoiceMsg
  | _ => invalidNumberMsg

/-- The run of `handle_answer` rejected the answer: the per-user state
is unchanged and the handler stays in the answering state. -/
def isRejectedRun (ud : UserData) (raw : String) : Prop :=
  (handle_answer ud raw).user_data = ud ∧
  (handle_answer ud raw).result = .answering

instance (ud : UserData) (raw : String) : Decidable (isRejectedRun ud raw) := by
  unfold isRejectedRun
  infer_instance

/-- A user with no prior data. -/
def udEmpty : UserData := ⟨none, none⟩

/-- The spec's concrete scenario, step 1: `/setup` from a fresh user. -/
def runA : StepOut := setup (some ⟨7, "alice"⟩) "sid-1" udEmpty

/-- Scenario step 3: answer `20` at question 0. -/
def runB : StepOut := handle_answer runA.user_data "20"

/-- Scenario step 5: answer `percent` at question 1. -/
def runC : StepOut := handle_answer runB.user_data "percent"

/-- Scenario step 6: answer `10` at question 2 (completion). -/
def runD : StepOut := handle_answer runC.user_data "10"

/-!
Helper lemmas: frame facts about the handler tails, characterizations
of the number parsers, and the per-branch behaviour of
`handle_answer`.
-/

theorem askQuestion_user_data (ud1 : UserData) (i : Nat) :
    (askQuestion ud1 i).user_data = ud1 := by
  unfold askQuestion
  split
  · rfl
  · split <;> rfl

theorem emitSummary_user_data (ud1 : UserData) (a : Answers) :
    (emitSummary ud1 a).user_data = ud1 := by
  unfold emitSummary
  split <;> rfl

theorem emitSummary_result (ud1 : UserData) (a : Answers) :
    (emitSummary ud1 a).result = .ended := by
  unfold emitSummary
  split <;> rfl

theorem digit_beq_false {x c0 : Char} (hx : x.isDigit = true) (h0 : c0.isDigit = false) :
    (x == c0) = false := by
  cases hbe : x == c0
  · rfl
  · rw [beq_iff_eq] at hbe
    rw [hbe] at hx
    rw [hx] at h0
    exact absurd h0 (by simp)

theorem validDigitRun_of_digits (cs : List Char) (h1 : cs ≠ [])
    (h2 : cs.all Char.isDigit = true) : validDigitRun cs = true := by
  have hall := List.all_eq_true.mp h2
  match cs, h1 with
  | c :: rest, _ =>
    have hc : c.isDigit = true := hall c (List.mem_cons_self c rest)
    have hglast : (c :: rest).getLast? = some ((c :: rest).getLast (by simp)) :=
      List.getLast?_eq_getLast_of_ne_nil (by simp)
    have hld : ((c :: rest).getLast (by simp)).isDigit = true :=
      hall _ (List.getLast_mem _)
    have h3 : (c :: rest).all (fun x => x.isDigit || x == '_') = true :=
      List.all_eq_true.mpr (fun x hx => by rw [hall x hx]; rfl)
    have h4 : ((c :: rest).zip (c :: rest).tail).all
        (fun p => !(p.1 == '_' && p.2 == '_')) = true :=
      List.all_eq_true.mpr (fun p hp => by
        have h5 : (p.1 == '_') = false :=
          digit_beq_false (hall p.1 (List.of_mem_zip hp).1) (by decide)
        rw [h5]
        rfl)
    simp only [validDigitRun, hglast, hc, hld, h3, h4]
    rfl

theorem validDigitRun_false_of_dot (cs : List Char) (h : '.' ∈ cs) :
    validDigitRun cs = false := by
  cases hv : validDigitRun cs
  · rfl
  · exfalso
    match cs, h with
    | c :: rest, h =>
      unfold validDigitRun at hv
      rw [Bool.and_eq_true, Bool.and_eq_true, Bool.and_eq_true] at hv
      have h3 := List.all_eq_true.mp hv.1.2 '.' h
      exact absurd h3 (by decide)

theorem splitAtChar_none_eq (c : Char) (cs a : List Char)
    (h : splitAtChar c cs = (a, none)) :
    cs = a ∧ ∀ x ∈ cs, (x == c) = false := by
  induction cs generalizing a with
  | nil =>
    simp [splitAtChar] at h
    simp [h]
  | cons x rest ih =>
    by_cases hx : (x == c) = true
    · simp [splitAtChar, hx] at h
    · rcases hsp : splitAtChar c rest with ⟨a', b'⟩
      simp [splitAtChar, hx, hsp] at h
      obtain ⟨rfl, rfl⟩ := h
      obtain ⟨rfl, hrest⟩ := ih a' hsp
      refine ⟨rfl, ?_⟩
      intro y hy
      rcases List.mem_cons.mp hy with rfl | hy
      · simpa using hx
      · exact hrest y hy

theorem splitAtChar_some_eq (c : Char) (cs a b : List Char)
    (h : splitAtChar c cs = (a, some b)) :
    cs = a ++ c :: b ∧ ∀ x ∈ a, (x == c) = false := by
  induction cs generalizing a with
  | nil => simp [splitAtChar] at h
  | cons x rest ih =>
    by_cases hx : (x == c) = true
    · simp [splitAtChar, hx] at h
      obtain ⟨rfl, rfl⟩ := h
      rw [beq_iff_eq] at hx
      simp [hx]
    · rcases hsp : splitAtChar c rest with ⟨a', b'⟩
      simp [splitAtChar, hx, hsp] at h
      obtain ⟨rfl, rfl⟩ := h
      obtain ⟨rfl, hrest⟩ := ih a' hsp
      refine ⟨rfl, ?_⟩
      intro y hy
      rcases List.mem_cons.mp hy with rfl | hy
      · simpa using hx
      · exact hrest y hy

theorem splitAtChar_self (c : Char) (cs : List Char)
    (h : ∀ x ∈ cs, (x == c) = false) : splitAtChar c cs = (cs, none) := by
  induction cs with
  | nil => rfl
  | cons x rest ih =>
    have hx : (x == c) = false := h x (List.mem_cons_self x rest)
    rw [splitAtChar, if_neg (by simp [hx]),
      ih (fun y hy => h y (List.mem_cons_of_mem x hy))]

theorem splitAtChar_append (c : Char) (a b : List Char)
    (h : ∀ x ∈ a, (x == c) = false) :
    splitAtChar c (a ++ c :: b) = (a, some b) := by
  induction a with
  | nil => simp [splitAtChar]
  | cons x rest ih =>
    have hx : (x == c) = false := h x (List.mem_cons_self x rest)
    rw [List.cons_append, splitAtChar, if_neg (by simp [hx]),
      ih (fun y hy => h y (List.mem_cons_of_mem x hy))]

theorem stripSign_digit_head (c : Char) (rest : List Char) (hc : c.isDigit = true) :
    stripSign (c :: rest) = (false, c :: rest) := by
  have h1 : (c == '+') = false := digit_beq_false hc (by decide)
  have h2 : (c == '-') = false := digit_beq_false hc (by decide)
  simp [stripSign, h1, h2]

theorem posDecimalLit_head (s : String) (h : isPosDecimalLit s = true) :
    ∃ c rest, s.data = c :: rest ∧ c.isDigit = true := by
  unfold isPosDecimalLit at h
  rcases hsp : splitAtChar '.' s.data with ⟨ip, fpo⟩
  rw [hsp] at h
  cases fpo with
  | none =>
    rw [Bool.and_eq_true, Bool.and_eq_true] at h
    obtain ⟨⟨hne, hdig⟩, _⟩ := h
    obtain ⟨rfl, _⟩ := splitAtChar_none_eq '.' s.data ip hsp
    match hd : s.data, (show s.data ≠ [] by simpa using hne) with
    | c :: rest, _ =>
      exact ⟨c, rest, rfl, List.all_eq_true.mp (hd ▸ hdig) c (List.mem_cons_self c rest)⟩
  | some fp =>
    rw [Bool.and_eq_true, Bool.and_eq_true, Bool.and_eq_true, Bool.and_eq_true] at h
    obtain ⟨⟨⟨⟨hipne, _⟩, hipdig⟩, _⟩, _⟩ := h
    obtain ⟨heq, _⟩ := splitAtChar_some_eq '.' s.data ip fp hsp
    match hip : ip, (show ip ≠ [] by simpa using hipne) with
    | c :: rest, _ =>
      exact ⟨c, rest ++ '.' :: fp, by simpa using heq,
        List.all_eq_true.mp hipdig c (List.mem_cons_self c rest)⟩

theorem pyInt_of_posIntLit (s : String) (h : isPosIntLit s = true) :
    pyIntOfString s = some (digitsNat s.data : Int) ∧ 0 < digitsNat s.data := by
  unfold isPosIntLit at h
  rw [Bool.and_eq_true, Bool.and_eq_true] at h
  obtain ⟨⟨hne, hdig⟩, hnz⟩ := h
  have hne' : s.data ≠ [] := by simpa using hne
  match hd : s.data, hne' with
  | c :: rest, _ =>
    have hall := List.all_eq_true.mp (hd ▸ hdig)
    have hc : c.isDigit = true := hall c (List.mem_cons_self c rest)
    have hvr : validDigitRun (c :: rest) = true :=
      validDigitRun_of_digits (c :: rest) (by simp) (hd ▸ hdig)
    constructor
    · unfold pyIntOfString
      rw [hd, stripSign_digit_head c rest hc]
      simp [hvr]
    · rw [hd] at hnz
      exact Nat.pos_of_ne_zero (by simpa using hnz)

theorem pyInt_none_of_fractional (s : String) (h : isFractionalLit s = true) :
    pyIntOfString s = none := by
  unfold isFractionalLit at h
  rw [Bool.and_eq_true] at h
  obtain ⟨hpd, hdot⟩ := h
  have hdot' : '.' ∈ s.data := by
    rw [List.any_eq_true] at hdot
    obtain ⟨x, hx, hxe⟩ := hdot
    rw [beq_iff_eq] at hxe
    exact hxe ▸ hx
  obtain ⟨c, rest, hd, hc⟩ := posDecimalLit_head s hpd
  have hvr : validDigitRun (c :: rest) = false :=
    validDigitRun_false_of_dot (c :: rest) (hd ▸ hdot')
  unfold pyIntOfString
  rw [hd, stripSign_digit_head c rest hc]
  simp [hvr]

theorem decToDRat_num_pos (n k : Nat) (hn : 0 < n) :
    0 < (decToDRat false n k 0).num := by
  unfold decToDRat
  by_cases h : (0 : Int) ≤ 0 - (k : Int)
  · simp only [if_pos h]
    exact Int.natCast_pos.mpr (Nat.mul_pos hn (pow_pos (by norm_num) _))
  · simp only [if_neg h]
    have hg : 0 < Nat.gcd n (10 ^ (-((0 : Int) - (k : Int))).toNat) :=
      Nat.gcd_pos_of_pos_left _ hn
    exact Int.natCast_pos.mpr
      (Nat.div_pos (Nat.le_of_dvd hn (Nat.gcd_dvd_left _ _)) hg)

theorem digits_ne_e {cs : List Char} (hdig : cs.all Char.isDigit = true) :
    ∀ x ∈ cs, (x == 'e') = false := fun x hx =>
  digit_beq_false (List.all_eq_true.mp hdig x hx) (by decide)

theorem pyFloatBody_digits (c : Char) (rest : List Char)
    (hdig : (c :: rest).all Char.isDigit = true) :
    pyFloatBody false (c :: rest) =
      some (.finite (decToDRat false (digitsNat (c :: rest)) 0 0)) := by
  have hc : c.isDigit = true := List.all_eq_true.mp hdig c (List.mem_cons_self c rest)
  have hni : ¬(c :: rest = "inf".data ∨ c :: rest = "infinity".data) := by
    rintro (he | he) <;>
      · injection he with h1 _
        rw [h1] at hc
        exact absurd hc (by decide)
  have hnn : ¬(c :: rest = "nan".data) := by
    intro he
    injection he with h1 _
    rw [h1] at hc
    exact absurd hc (by decide)
  have hse : splitAtChar 'e' (c :: rest) = (c :: rest, none) :=
    splitAtChar_self 'e' (c :: rest) (digits_ne_e hdig)
  have hsd : splitAtChar '.' (c :: rest) = (c :: rest, none) :=
    splitAtChar_self '.' (c :: rest)
      (fun x hx => digit_beq_false (List.all_eq_true.mp hdig x hx) (by decide))
  have hvm : validMantissa (c :: rest) = true := by
    unfold validMantissa
    rw [hsd]
    exact validDigitRun_of_digits _ (by simp) hdig
  have hmn : mantissaNum (c :: rest) = (digitsNat (c :: rest), 0) := by
    unfold mantissaNum
    rw [hsd]
  unfold pyFloatBody
  rw [if_neg hni, if_neg hnn, hse]
  simp only [hvm, if_pos rfl, hmn]
  rfl

theorem pyFloatBody_frac (c : Char) (rest fp : List Char)
    (hipdig : (c :: rest).all Char.isDigit = true)
    (hfpne : fp ≠ []) (hfpdig : fp.all Char.isDigit = true) :
    pyFloatBody false ((c :: rest) ++ '.' :: fp) =
      some (.finite (decToDRat false
        (digitsNat (c :: rest) * 10 ^ fp.length + digitsNat fp) fp.length 0)) := by
  have hc : c.isDigit = true := List.all_eq_true.mp hipdig c (List.mem_cons_self c rest)
  have hni : ¬((c :: rest) ++ '.' :: fp = "inf".data ∨
      (c :: rest) ++ '.' :: fp = "infinity".data) := by
    rintro (he | he) <;>
      · rw [List.cons_append] at he
        injection he with h1 _
        rw [h1] at hc
        exact absurd hc (by decide)
  have hnn : ¬((c :: rest) ++ '.' :: fp = "nan".data) := by
    intro he
    rw [List.cons_append] at he
    injection he with h1 _
    rw [h1] at hc
    exact absurd hc (by decide)
  have hallne : ∀ x ∈ (c :: rest) ++ '.' :: fp, (x == 'e') = false := by
    intro x hx
    rcases List.mem_append.mp hx with hx | hx
    · exact digit_beq_false (List.all_eq_true.mp hipdig x hx) (by decide)
    · rcases List.mem_cons.mp hx with rfl | hx
      · decide
      · exact digit_beq_false (List.all_eq_true.mp hfpdig x hx) (by decide)
  have hse : splitAtChar 'e' ((c :: rest) ++ '.' :: fp) =
      ((c :: rest) ++ '.' :: fp, none) :=
    splitAtChar_self 'e' _ hallne
  have hsd : splitAtChar '.' ((c :: rest) ++ '.' :: fp) = (c :: rest, some fp) :=
    splitAtChar_append '.' (c :: rest) fp
      (fun x hx => digit_beq_false (List.all_eq_true.mp hipdig x hx) (by decide))
  have hfilter : fp.filter (fun x => x != '_') = fp :=
    List.filter_eq_self.mpr (fun x hx => by
      have h6 := digit_beq_false (List.all_eq_true.mp hfpdig x hx)
        (show ('_' : Char).isDigit = false by decide)
      simp [bne, h6])
  have hvm : validMantissa ((c :: rest) ++ '.' :: fp) = true := by
    unfold validMantissa
    rw [hsd]
    have h1 : validDigitRun (c :: rest) = true := validDigitRun_of_digits _ (by simp) hipdig
    have h2 : validDigitRun fp = true := validDigitRun_of_digits _ hfpne hfpdig
    simp [h1, h2]
  have hmn : mantissaNum ((c :: rest) ++ '.' :: fp) =
      (digitsNat (c :: rest) * 10 ^ fp.length + digitsNat fp, fp.length) := by
    unfold mantissaNum
    rw [hsd]
    simp only [hfilter]
  unfold pyFloatBody
  rw [if_neg hni, if_neg hnn, hse]
  simp only [hvm, if_pos rfl, hmn]
  simp

theorem pyFloat_of_posDecimalLit (s : String) (h : isPosDecimalLit s = true) :
    ∃ q : DRat, pyFloatOfString s = some (.finite q) ∧ 0 < q.num := by
  obtain ⟨c, crest, hd, hc⟩ := posDecimalLit_head s h
  unfold isPosDecimalLit at h
  rcases hsp : splitAtChar '.' s.data with ⟨ip, fpo⟩
  rw [hsp] at h
  cases fpo with
  | none =>
    rw [Bool.and_eq_true, Bool.and_eq_true] at h
    obtain ⟨⟨hne, hdig⟩, hnz⟩ := h
    obtain ⟨hdeq, _⟩ := splitAtChar_none_eq '.' s.data ip hsp
    refine ⟨decToDRat false (digitsNat s.data) 0 0, ?_, ?_⟩
    · unfold pyFloatOfString
      rw [hd, stripSign_digit_head c crest hc]
      have hdig' : (c :: crest).all Char.isDigit = true := by
        rw [← hd, hdeq]; exact hdig
      show pyFloatBody false (c :: crest) = _
      rw [pyFloatBody_digits c crest hdig', ← hd]
    · have hnz' : digitsNat s.data ≠ 0 := by
        rw [hdeq]; simpa using hnz
      exact decToDRat_num_pos _ _ (Nat.pos_of_ne_zero hnz')
  | some fp =>
    rw [Bool.and_eq_true, Bool.and_eq_true, Bool.and_eq_true, Bool.and_eq_true] at h
    obtain ⟨⟨⟨⟨hipne, hfpne⟩, hipdig⟩, hfpdig⟩, hval⟩ := h
    obtain ⟨hdeq, hnodot⟩ := splitAtChar_some_eq '.' s.data ip fp hsp
    have hfpne' : fp ≠ [] := by simpa using hfpne
    match hip : ip, (show ip ≠ [] by simpa using hipne) with
    | c2 :: rest2, _ =>
      have hc2 : c2.isDigit = true :=
        List.all_eq_true.mp hipdig c2 (List.mem_cons_self c2 rest2)
      refine ⟨decToDRat false
        (digitsNat (c2 :: rest2) * 10 ^ fp.length + digitsNat fp) fp.length 0, ?_, ?_⟩
      · unfold pyFloatOfString
        rw [hdeq, List.cons_append, stripSign_digit_head c2 (rest2 ++ '.' :: fp) hc2]
        show pyFloatBody false ((c2 :: rest2) ++ '.' :: fp) = _
        rw [pyFloatBody_frac c2 rest2 fp hipdig hfpne' hfpdig]
      · apply decToDRat_num_pos
        apply Nat.pos_of_ne_zero
        intro h0
        obtain ⟨hm, hb⟩ := Nat.add_eq_zero.mp h0
        rcases Nat.mul_eq_zero.mp hm with ha | hp10
        · rw [Bool.or_eq_true] at hval
          rcases hval with hv | hv
          · exact absurd ha (by simpa using hv)
          · exact absurd hb (by simpa using hv)
        · exact absurd hp10 (pow_ne_zero _ (by norm_num))

theorem rejected_replies_eq (ud : UserData) (sd : SetupData) (raw : String)
    (h : ud.setup_data = some sd) (hr : isRejectedRun ud raw) :
    (handle_answer ud raw).replies = [rejectionMsg sd.current_question] := by
  obtain ⟨hru, hrr⟩ := hr
  by_cases h0 : sd.current_question = 0
  · rcases hp : pyIntOfString (pyLower (pyStrip raw)) with _ | n
    · simp [handle_answer, h, h0, hp, rejectionMsg]
    · by_cases hn : n ≤ 0
      · simp [handle_answer, h, h0, hp, hn, rejectionMsg]
      · exfalso
        simp [handle_answer, h, h0, hp, hn, askQuestion_user_data] at hru
        have h2 := congrArg UserData.setup_data hru
        rw [h] at h2
        have h3 := congrArg (fun o => (o.getD sd).current_question) h2
        simp [h0] at h3
  · by_cases h1 : sd.current_question = 1
    · by_cases hm : (pyLower (pyStrip raw) == "number" || pyLower (pyStrip raw) == "percent") = true
      · exfalso
        simp [handle_answer, h, h0, h1, hm, askQuestion_user_data] at hru
        have h2 := congrArg UserData.setup_data hru
        rw [h] at h2
        have h3 := congrArg (fun o => (o.getD sd).current_question) h2
        simp [h1] at h3
      · have hm' : (pyLower (pyStrip raw) == "number" || pyLower (pyStrip raw) == "percent") = false := by
          simpa using hm
        simp [handle_answer, h, h0, h1, hm', rejectionMsg]
    · by_cases h2 : sd.current_question = 2
      · rcases hp : pyFloatOfString (pyLower (pyStrip raw)) with _ | v
        · simp [handle_answer, h, h0, h1, h2, hp, rejectionMsg]
        · by_cases hv : v.le0 = true
          · simp [handle_answer, h, h0, h1, h2, hp, hv, rejectionMsg]
          · exfalso
            simp [handle_answer, h, h0, h1, h2, hp, hv, emitSummary_result] at hrr
      · exfalso
        simp [handle_answer, h, h0, h1, h2] at hrr

theorem handle_q0_rejected (ud : UserData) (sd : SetupData) (raw : String)
    (h : ud.setup_data = some sd) (hq : sd.current_question = 0)
    (hrej : pyIntOfString (pyLower (pyStrip raw)) = none ∨
      ∃ n, pyIntOfString (pyLower (pyStrip raw)) = some n ∧ n ≤ 0) :
    handle_answer ud raw = ⟨ud, [invalidNumberMsg], .answering⟩ := by
  rcases hrej with hp | ⟨n, hp, hn⟩ <;> simp [handle_answer, h, hq, hp]
  intro hc
  omega

theorem handle_q1_rejected (ud : UserData) (sd : SetupData) (raw : String)
    (h : ud.setup_data = some sd) (hq : sd.current_question = 1)
    (h1 : pyLower (pyStrip raw) ≠ "number") (h2 : pyLower (pyStrip raw) ≠ "percent") :
    handle_answer ud raw = ⟨ud, [invalidChoiceMsg], .answering⟩ := by
  have hm : (pyLower (pyStrip raw) == "number" || pyLower (pyStrip raw) == "percent") = false := by
    simp [h1, h2]
  simp [handle_answer, h, hq, hm]

theorem handle_q2_rejected (ud : UserData) (sd : SetupData) (raw : String)
    (h : ud.setup_data = some sd) (hq : sd.current_question = 2)
    (hrej : pyFloatOfString (pyLower (pyStrip raw)) = none ∨
      ∃ v, pyFloatOfString (pyLower (pyStrip raw)) = some v ∧ v.le0 = true) :
    handle_answer ud raw = ⟨ud, [invalidNumberMsg], .answering⟩ := by
  rcases hrej with hp | ⟨v, hp, hv⟩ <;> simp [handle_answer, h, hq, hp]
  intro hc
  rw [hv] at hc
  exact absurd hc (by simp)

theorem handle_q0_accepted (ud : UserData) (sd : SetupData) (raw : String)
    (h : ud.setup_data = some sd) (hq : sd.current_question = 0)
    (n : Int) (hp : pyIntOfString (pyLower (pyStrip raw)) = some n) (hn : ¬ n ≤ 0) :
    handle_answer ud raw =
      askQuestion { ud with setup_data := some { sd with
        answers := { sd.answers with daily_puffs := some n },
        current_question := 1 } } 1 := by
  simp [handle_answer, h, hq, hp, hn]

theorem handle_q2_accepted (ud : UserData) (sd : SetupData) (raw : String)
    (h : ud.setup_data = some sd) (hq : sd.current_question = 2)
    (v : PyFloat) (hp : pyFloatOfString (pyLower (pyStrip raw)) = some v)
    (hv : v.le0 = false) :
    handle_answer ud raw =
      emitSummary { ud with setup_data := some { sd with
        answers := { sd.answers with goal_value := some v } } }
        { sd.answers with goal_value := some v } := by
  simp [handle_answer, h, hq, hp, hv]

/-- C3: for every user in the Idle state (no session present), an Answer
event emits the guidance message telling the user to restart with
`/setup`, creates no session, and leaves the state Idle. -/
theorem claim_C3_theorem (ud : UserData) (text : String) (h : ud.setup_data = none) :
    handle_answer ud text = ⟨ud, [somethingWrongMsg], .ended⟩ ∧
    (handle_answer ud text).user_data.setup_data = none := by
  have he : handle_answer ud text = ⟨ud, [somethingWrongMsg], .ended⟩ := by
    unfold handle_answer
    rw [h]
  exact ⟨he, by rw [he]; exact h⟩

/-- Witness for C3 at a concrete idle user and answer. -/
theorem claim_C3_witness :
    handle_answer udEmpty "5" = ⟨udEmpty, [somethingWrongMsg], .ended⟩ ∧
    (handle_answer udEmpty "5").user_data.setup_data = none :=
  claim_C3_theorem udEmpty "5" rfl

/-- C7: a Cancel event always results in no persisted session, emits the
cancellation acknowledgement, and returns the end result, whether or not
a session existed before. -/
theorem claim_C7_theorem (ud : UserData) :
    (cancel ud).user_data.setup_data = none ∧
    (cancel ud).replies = [cancelMsg] ∧
    (cancel ud).result = .ended := by
  unfold cancel
  by_cases h : ud.setup_data.isSome <;>
    simp_all [Option.not_isSome_iff_eq_none]

/-- C10: a Start event with no effective user on the update creates no
session, emits the fixed setup-failure reply, and ends (rather than
raising); an idle user stays idle. -/
theorem claim_C10_theorem (sid : String) (ud : UserData) (h : ud.setup_data = none) :
    setup none sid ud = ⟨ud, [setupFailedMsg], .ended⟩ ∧
    (setup none sid ud).user_data.setup_data = none := by
  unfold setup
  exact ⟨rfl, h⟩

/-- Witness for C10 at a concrete idle user. -/
theorem claim_C10_witness :
    setup none "sid-0" udEmpty = ⟨udEmpty, [setupFailedMsg], .ended⟩ ∧
    (setup none "sid-0" udEmpty).user_data.setup_data = none :=
  claim_C10_theorem "sid-0" udEmpty rfl

/-- C4: for every user with a usable identity and every current state, a
Start event replaces any existing session by a fresh one at step 0 with
an empty answers map, emits the step-0 prompt, and never errors. -/
theorem claim_C4_theorem (eu : EffUser) (sid : String) (ud : UserData)
    (hid : eu.id ≠ 0) (hname : eu.first_name ≠ "") :
    setup (some eu) sid ud =
      ⟨⟨some ⟨eu.id, eu.first_name, sid, 0, ⟨none, none, none⟩⟩, some questionsTake⟩,
       (if ud.setup_data.isSome then [alreadySetupMsg] else []) ++ [questionsTake.getD 0 ""],
       .answering⟩ := by
  by_cases h : ud.setup_data.isSome <;>
    simp [setup, hid, hname, h, questionsTake]

/-- Witness for C4 at a concrete user starting from the Idle state. -/
theorem claim_C4_witness :
    setup (some ⟨7, "alice"⟩) "sid-1" udEmpty =
      ⟨⟨some ⟨7, "alice", "sid-1", 0, ⟨none, none, none⟩⟩, some questionsTake⟩,
       [questionsTake.getD 0 ""], .answering⟩ := by
  have h := claim_C4_theorem ⟨7, "alice"⟩ "sid-1" udEmpty (by decide) (by decide)
  simpa [udEmpty] using h

/-- C5: for every session at any step, a rejected answer leaves the
whole per-user state unchanged and emits only the fixed rejection
message, staying in the answering state. -/
theorem claim_C5_theorem (ud : UserData) (sd : SetupData) (raw : String)
    (h : ud.setup_data = some sd) :
    (sd.current_question = 0 →
      (pyIntOfString (pyLower (pyStrip raw)) = none ∨
       ∃ n, pyIntOfString (pyLower (pyStrip raw)) = some n ∧ n ≤ 0) →
      handle_answer ud raw = ⟨ud, [invalidNumberMsg], .answering⟩) ∧
    (sd.current_question = 1 →
      pyLower (pyStrip raw) ≠ "number" → pyLower (pyStrip raw) ≠ "percent" →
      handle_answer ud raw = ⟨ud, [invalidChoiceMsg], .answering⟩) ∧
    (sd.current_question = 2 →
      (pyFloatOfString (pyLower (pyStrip raw)) = none ∨
       ∃ v, pyFloatOfString (pyLower (pyStrip raw)) = some v ∧ v.le0 = true) →
      handle_answer ud raw = ⟨ud, [invalidNumberMsg], .answering⟩) :=
  ⟨fun hq hrej => handle_q0_rejected ud sd raw h hq hrej,
   fun hq h1 h2 => handle_q1_rejected ud sd raw h hq h1 h2,
   fun hq hrej => handle_q2_rejected ud sd raw h hq hrej⟩

/-- Witness for C5: a negative number at step 0 is rejected with the
session unchanged. -/
theorem claim_C5_witness :
    handle_answer runA.user_data " -3 " = ⟨runA.user_data, [invalidNumberMsg], .answering⟩ :=
  (claim_C5_theorem runA.user_data ⟨7, "alice", "sid-1", 0, ⟨none, none, none⟩⟩ " -3 "
    (by decide)).1 rfl (Or.inr ⟨-3, by decide, by decide⟩)

/-- C8: at the choice step (question 1) the answer is normalized by
trimming and lower-casing; it is accepted exactly when the normalized
form is `number` or `percent`, storing the normalized choice and
advancing, and rejected (state unchanged) otherwise. -/
theorem claim_C8_theorem (ud : UserData) (sd : SetupData) (raw : String)
    (h : ud.setup_data = some sd) (hq : sd.current_question = 1) :
    ((pyLower (pyStrip raw) = "number" ∨ pyLower (pyStrip raw) = "percent") →
      (handle_answer ud raw).user_data.setup_data =
        some { sd with
          answers := { sd.answers with reduction_type := some (pyLower (pyStrip raw)) },
          current_question := 2 }) ∧
    (pyLower (pyStrip raw) ≠ "number" → pyLower (pyStrip raw) ≠ "percent" →
      handle_answer ud raw = ⟨ud, [invalidChoiceMsg], .answering⟩) := by
  constructor
  · intro ht
    have hm : (pyLower (pyStrip raw) == "number" || pyLower (pyStrip raw) == "percent") = true := by
      rcases ht with ht | ht <;> simp [ht]
    simp [handle_answer, h, hq, hm, askQuestion_user_data]
  · intro h1 h2
    exact handle_q1_rejected ud sd raw h hq h1 h2

/-- Witness for C8: the raw answer ` NUMBER ` is normalized to `number`,
accepted, stored, and the session advances to step 2. -/
theorem claim_C8_witness :
    (handle_answer runB.user_data " NUMBER ").user_data.setup_data =
      some ⟨7, "alice", "sid-1", 2, ⟨some 20, some "number", none⟩⟩ := by
  have h := (claim_C8_theorem runB.user_data ⟨7, "alice", "sid-1", 1, ⟨some 20, none, none⟩⟩
    " NUMBER " (by decide) rfl).1 (Or.inl (by decide))
  rw [h]
  decide

/-- C9: for every session, any two rejected answers at the same step
produce the identical, fixed, step-specific rejection reply (no part of
the raw input is echoed). -/
theorem claim_C9_theorem (ud : UserData) (sd : SetupData) (raw1 raw2 : String)
    (h : ud.setup_data = some sd)
    (h1 : isRejectedRun ud raw1) (h2 : isRejectedRun ud raw2) :
    (handle_answer ud raw1).replies = (handle_answer ud raw2).replies ∧
    (handle_answer ud raw1).replies = [rejectionMsg sd.current_question] := by
  have e1 := rejected_replies_eq ud sd raw1 h h1
  have e2 := rejected_replies_eq ud sd raw2 h h2
  exact ⟨e1.trans e2.symm, e1⟩

/-- Witness for C9: two different malformed answers at step 0 get the
same fixed reply. -/
theorem claim_C9_witness :
    (handle_answer runA.user_data "abc").replies = (handle_answer runA.user_data "0").replies ∧
    (handle_answer runA.user_data "abc").replies = [rejectionMsg 0] :=
  claim_C9_theorem runA.user_data ⟨7, "alice", "sid-1", 0, ⟨none, none, none⟩⟩ "abc" "0"
    (by decide) (by decide) (by decide)

/-- C1 counterexample: in the spec's concrete scenario, after the last
answer `10` is accepted the summary is emitted and the conversation
ends, but the session is NOT deleted (the setup data persists at
question 2), and a plain answer `5` sent afterwards is processed as
another step-2 answer, emitting a fresh summary rather than the
start-the-wizard guidance. -/
theorem claim_C1_counterexample :
    runD.result = .ended ∧
    runD.user_data.setup_data ≠ none ∧
    (handle_answer runD.user_data "5").replies ≠ [somethingWrongMsg] ∧
    (handle_answer runD.user_data "5").result = .ended ∧
    (handle_answer runD.user_data "5").user_data.setup_data ≠ none := by
  decide

/-- C1 amended: when the answer to the last step (question index 2) is
accepted, the engine emits the summary and returns the conversation-end
result, but it retains the session with `current_question = 2` and the
recorded goal value; the user is not returned to the no-session state. -/
theorem claim_C1_amended (ud : UserData) (sd : SetupData) (raw : String)
    (d : Int) (r : String) (v : PyFloat)
    (h : ud.setup_data = some sd) (hq : sd.current_question = 2)
    (hd : sd.answers.daily_puffs = some d) (hr : sd.answers.reduction_type = some r)
    (hp : pyFloatOfString (pyLower (pyStrip raw)) = some v) (hv : v.le0 = false) :
    handle_answer ud raw =
      ⟨{ ud with setup_data := some { sd with
          answers := { sd.answers with goal_value := some v } } },
       [("✅ *Setup Complete\\!*\n\n" ++
         "Daily puffs: `" ++ toString d ++ "`\n" ++
         "Reduction type: `" ++ r ++ "`\n" ++
         "Weekly goal: `" ++ v.pyRepr ++ "`")],
       .ended⟩ ∧
    (handle_answer ud raw).user_data.setup_data ≠ none := by
  have hacc := handle_q2_accepted ud sd raw h hq v hp hv
  have hcs : createSummary { sd.answers with goal_value := some v } =
      some ("✅ *Setup Complete\\!*\n\n" ++
        "Daily puffs: `" ++ toString d ++ "`\n" ++
        "Reduction type: `" ++ r ++ "`\n" ++
        "Weekly goal: `" ++ v.pyRepr ++ "`") := by
    simp [createSummary, hd, hr]
  constructor
  · rw [hacc]
    unfold emitSummary
    rw [hcs]
  · rw [hacc, emitSummary_user_data]
    simp

/-- Witness for the amended C1: the session survives the completing
answer of the concrete scenario. -/
theorem claim_C1_witness :
    (handle_answer runC.user_data "10").user_data.setup_data ≠ none :=
  (claim_C1_amended runC.user_data ⟨7, "alice", "sid-1", 2, ⟨some 20, some "percent", none⟩⟩
    "10" 20 "percent" (.finite ⟨10, 1⟩) (by decide) rfl rfl rfl (by decide) (by decide)).2

/-- C2 counterexample: `2.5` is a positive decimal number in fractional
form, yet at step 0 (a NumberPositive step, parsed with `int()`) it is
rejected and the session is left unchanged. -/
theorem claim_C2_counterexample :
    isPosDecimalLit "2.5" = true ∧
    isFractionalLit "2.5" = true ∧
    runA.user_data.setup_data =
      some ⟨7, "alice", "sid-1", 0, ⟨none, none, none⟩⟩ ∧
    handle_answer runA.user_data "2.5" = ⟨runA.user_data, [invalidNumberMsg], .answering⟩ := by
  decide

/-- C2 amended: both NumberPositive steps reject empty or whitespace-only
input, unparseable input, and parsed values at most 0.  Step 2 (parsed
with `float()`) accepts every positive decimal literal, integer or
fractional, storing the parsed number.  Step 0 (parsed with `int()`)
accepts positive integer literals, storing the parsed number, but
rejects fractional literals. -/
theorem claim_C2_amended (ud : UserData) (sd : SetupData) (raw : String)
    (h : ud.setup_data = some sd) :
    ((sd.current_question = 0 ∨ sd.current_question = 2) → pyStrip raw = "" →
      handle_answer ud raw = ⟨ud, [invalidNumberMsg], .answering⟩) ∧
    (sd.current_question = 0 → pyIntOfString (pyLower (pyStrip raw)) = none →
      handle_answer ud raw = ⟨ud, [invalidNumberMsg], .answering⟩) ∧
    (sd.current_question = 0 → ∀ n, pyIntOfString (pyLower (pyStrip raw)) = some n → n ≤ 0 →
      handle_answer ud raw = ⟨ud, [invalidNumberMsg], .answering⟩) ∧
    (sd.current_question = 0 → isPosIntLit (pyLower (pyStrip raw)) = true →
      (handle_answer ud raw).user_data.setup_data =
        some { sd with
          answers := { sd.answers with
            daily_puffs := some (digitsNat (pyLower (pyStrip raw)).data : Int) },
          current_question := 1 }) ∧
    (sd.current_question = 0 → isFractionalLit (pyLower (pyStrip raw)) = true →
      handle_answer ud raw = ⟨ud, [invalidNumberMsg], .answering⟩) ∧
    (sd.current_question = 2 → pyFloatOfString (pyLower (pyStrip raw)) = none →
      handle_answer ud raw = ⟨ud, [invalidNumberMsg], .answering⟩) ∧
    (sd.current_question = 2 → ∀ v, pyFloatOfString (pyLower (pyStrip raw)) = some v →
      v.le0 = true →
      handle_answer ud raw = ⟨ud, [invalidNumberMsg], .answering⟩) ∧
    (sd.current_question = 2 → isPosDecimalLit (pyLower (pyStrip raw)) = true →
      ∃ q : DRat, pyFloatOfString (pyLower (pyStrip raw)) = some (.finite q) ∧ 0 < q.num ∧
        (handle_answer ud raw).user_data.setup_data =
          some { sd with
            answers := { sd.answers with goal_value := some (.finite q) } }) := by
  refine ⟨?_, ?_, ?_, ?_, ?_, ?_, ?_, ?_⟩
  · rintro (hq | hq) hw
    · have ht : pyLower (pyStrip raw) = "" := by rw [hw]; rfl
      exact handle_q0_rejected ud sd raw h hq (Or.inl (by rw [ht]; rfl))
    · have ht : pyLower (pyStrip raw) = "" := by rw [hw]; rfl
      exact handle_q2_rejected ud sd raw h hq (Or.inl (by rw [ht]; rfl))
  · intro hq hp
    exact handle_q0_rejected ud sd raw h hq (Or.inl hp)
  · intro hq n hp hn
    exact handle_q0_rejected ud sd raw h hq (Or.inr ⟨n, hp, hn⟩)
  · intro hq hlit
    obtain ⟨heq, hpos⟩ := pyInt_of_posIntLit _ hlit
    have hn : ¬ ((digitsNat (pyLower (pyStrip raw)).data : Int) ≤ 0) :=
      not_le.mpr (Int.natCast_pos.mpr hpos)
    rw [handle_q0_accepted ud sd raw h hq _ heq hn, askQuestion_user_data]
  · intro hq hlit
    exact handle_q0_rejected ud sd raw h hq (Or.inl (pyInt_none_of_fractional _ hlit))
  · intro hq hp
    exact handle_q2_rejected ud sd raw h hq (Or.inl hp)
  · intro hq v hp hv
    exact handle_q2_rejected ud sd raw h hq (Or.inr ⟨v, hp, hv⟩)
  · intro hq hlit
    obtain ⟨q, hpq, hqpos⟩ := pyFloat_of_posDecimalLit _ hlit
    have hv : (PyFloat.finite q).le0 = false := by
      simp only [PyFloat.le0, decide_eq_false_iff_not]
      omega
    exact ⟨q, hpq, hqpos,
      by rw [handle_q2_accepted ud sd raw h hq (.finite q) hpq hv, emitSummary_user_data]⟩

/-- Witness for the amended C2: unparseable input at step 0 is rejected
with the session unchanged. -/
theorem claim_C2_witness :
    handle_answer runA.user_data "xyz" = ⟨runA.user_data, [invalidNumberMsg], .answering⟩ :=
  (claim_C2_amended runA.user_data ⟨7, "alice", "sid-1", 0, ⟨none, none, none⟩⟩ "xyz"
    (by decide)).2.1 rfl (by decide)

/-- C6 counterexample: the session invariant holds just before the final
answer of the concrete scenario, and the accepting engine step on `10`
produces a persisted session that violates it (an entry for step 2 while
`current_question` is still 2). -/
theorem claim_C6_counterexample :
    engineStep (.answer "10") runC.user_data = runD ∧
    runC.user_data.setup_data =
      some ⟨7, "alice", "sid-1", 2, ⟨some 20, some "percent", none⟩⟩ ∧
    sessionInv ⟨7, "alice", "sid-1", 2, ⟨some 20, some "percent", none⟩⟩ ∧
    runD.user_data.setup_data =
      some ⟨7, "alice", "sid-1", 2, ⟨some 20, some "percent", some (.finite ⟨10, 1⟩)⟩⟩ ∧
    ¬ sessionInv ⟨7, "alice", "sid-1", 2, ⟨some 20, some "percent", some (.finite ⟨10, 1⟩)⟩⟩ := by
  decide

/-- C6 amended: every engine operation (start, cancel, rejected answer,
and accepted answers at steps 0 and 1) preserves the session invariant,
except the accepting transition at the final step 2, which leaves a
persisted session with `current_question = 2` and an entry (the goal
value) for step 2. -/
theorem claim_C6_amended (e : Event) (ud : UserData)
    (hinv : ∀ sd, ud.setup_data = some sd → sessionInv sd) :
    ∀ sd', (engineStep e ud).user_data.setup_data = some sd' →
      sessionInv sd' ∨
      (∃ raw v, e = .answer raw ∧
        pyFloatOfString (pyLower (pyStrip raw)) = some v ∧ v.le0 = false ∧
        sd'.current_question = 2 ∧ sd'.answers.goal_value = some v) := by
  intro sd' hsd'
  cases e with
  | start eu sid =>
    left
    cases eu with
    | none => exact hinv sd' (by simpa [engineStep, setup] using hsd')
    | some u =>
      by_cases hb : (u.id == 0 || u.first_name == "") = true
      · exact hinv sd' (by simpa [engineStep, setup, hb] using hsd')
      · have hb' : (u.id == 0 || u.first_name == "") = false := by simpa using hb
        by_cases hs : ud.setup_data.isSome <;>
          · simp [engineStep, setup, hb', hs, questionsTake] at hsd'
            subst hsd'
            simp [sessionInv]
  | cancelEv =>
    by_cases hs : ud.setup_data.isSome
    · simp [engineStep, cancel, hs] at hsd'
    · rw [Option.not_isSome_iff_eq_none] at hs
      simp [engineStep, cancel, hs] at hsd'
  | answer raw =>
    rcases hs : ud.setup_data with _ | sd
    · simp [engineStep, handle_answer, hs] at hsd'
    · have hold := hinv sd hs
      by_cases h0 : sd.current_question = 0
      · rcases hp : pyIntOfString (pyLower (pyStrip raw)) with _ | n
        · left
          simp [engineStep, handle_answer, hs, h0, hp] at hsd'
          exact hsd' ▸ hold
        · by_cases hn : n ≤ 0
          · left
            simp [engineStep, handle_answer, hs, h0, hp, hn] at hsd'
            exact hsd' ▸ hold
          · left
            simp [engineStep, handle_answer, hs, h0, hp, hn, askQuestion_user_data] at hsd'
            subst hsd'
            obtain ⟨o1, o2, o3⟩ := hold
            rw [h0] at o2 o3
            simp [sessionInv]
            exact ⟨by simpa using o2, by simpa using o3⟩
      · by_cases h1 : sd.current_question = 1
        · by_cases hm : (pyLower (pyStrip raw) == "number" ||
              pyLower (pyStrip raw) == "percent") = true
          · left
            simp [engineStep, handle_answer, hs, h0, h1, hm, askQuestion_user_data] at hsd'
            subst hsd'
            obtain ⟨o1, o2, o3⟩ := hold
            rw [h1] at o1 o3
            simp [sessionInv]
            exact ⟨by simpa using o1, by simpa using o3⟩
          · left
            have hm' : (pyLower (pyStrip raw) == "number" ||
                pyLower (pyStrip raw) == "percent") = false := by
              simpa using hm
            simp [engineStep, handle_answer, hs, h0, h1, hm'] at hsd'
            exact hsd' ▸ hold
        · by_cases h2 : sd.current_question = 2
          · rcases hp : pyFloatOfString (pyLower (pyStrip raw)) with _ | v
            · left
              simp [engineStep, handle_answer, hs, h0, h1, h2, hp] at hsd'
              exact hsd' ▸ hold
            · by_cases hv : v.le0 = true
              · left
                simp [engineStep, handle_answer, hs, h0, h1, h2, hp, hv] at hsd'
                exact hsd' ▸ hold
              · right
                simp [engineStep, handle_answer, hs, h0, h1, h2, hp, hv,
                  emitSummary_user_data] at hsd'
                subst hsd'
                exact ⟨raw, v, rfl, hp, by simpa using hv, rfl, rfl⟩
          · left
            simp [engineStep, handle_answer, hs, h0, h1, h2] at hsd'
            exact hsd' ▸ hold

/-- Witness for the amended C6: an accepted step-0 answer from the fresh
scenario session preserves the invariant. -/
theorem claim_C6_witness :
    sessionInv ⟨7, "alice", "sid-1", 1, ⟨some 20, none, none⟩⟩ ∨
    (∃ raw v, Event.answer "20" = Event.answer raw ∧
      pyFloatOfString (pyLower (pyStrip raw)) = some v ∧ v.le0 = false ∧
      SetupData.current_question ⟨7, "alice", "sid-1", 1, ⟨some 20, none, none⟩⟩ = 2 ∧
      (SetupData.answers ⟨7, "alice", "sid-1", 1, ⟨some 20, none, none⟩⟩).goal_value = some v) :=
  claim_C6_amended (.answer "20") runA.user_data
    (fun sd hsd => by
      have he : runA.user_data.setup_data =
          some (⟨7, "alice", "sid-1", 0, ⟨none, none, none⟩⟩ : SetupData) := by decide
      rw [he] at hsd
      cases hsd
      decide)
    ⟨7, "alice", "sid-1", 1, ⟨some 20, none, none⟩⟩ (by decide)

end TPT
